import Mathlib

/-!
Verification of the task-orchestration core of github.com/daaku/summon.

The repository contains two evolutions of the orchestrator:

* `summon.go` (library form): `Task{Name, Do, Defer func(ctx) error}`, the
  `Serial` and `Parallel` composers, and the top-level `Run`.
* the `main` driver form: `Step{Do, Defer func(kill chan bool) error}`, the
  flat-list `run(steps)` driver with `Step.LoggedDefer`, and the process
  wrapper `run(cmd *exec.Cmd, kill chan bool) error` in the `system` package,
  plus the `system` package's disk operations (`SwapDisk` et al.).

We embed each effectful Go closure as an opaque `Act`: an identifier paired
with the fixed error result its invocation produces.  Executions are
represented by the list of identifiers of the acts that were invoked, in
invocation order (for the parallel composer this order is the canonical
task order; the claims proved about it are order-insensitive), together
with the value the Go function returns.  `nil` function fields become
`Option Act`; a `nil error` becomes `none`.
-/

namespace Summon

/-- Error values returned by `Do`/`Defer` closures and by processes. -/
abbrev Err := Nat

/-- An opaque effectful closure `func(...) error`: an identity (so that
invocations can be traced) together with the result its invocation returns
(`none` = the Go function returned `nil`). -/
structure Act where
  id : Nat
  result : Option Err
deriving DecidableEq

/-- Go struct `Task` from `summon.go`: `Name string; Do, Defer func(context.Context) error`,
with `nil` fields embedded as `none`. -/
structure Task where
  Name : String
  Do : Option Act
  Defer : Option Act
deriving DecidableEq

/-- Function `errgroup.NewMultiError` (github.com/daaku/errgroup), modelled from the
spec's Aggregated Error contract since the dependency's source is outside the
repository: `nil` entries are dropped; an empty collection is success
(`nil`); otherwise every underlying error is preserved. -/
def NewMultiError (es : List (Option Err)) : Option (List Err) :=
  match es.filterMap id with
  | [] => none
  | l => some l

/-- Output of one invocation of the `Do` produced by `Serial`: the pending
cleanup list accumulated in `defers`, the trace of invoked `Do` act ids in
order, and the returned error. -/
structure SerialOut where
  defers : List Act
  trace : List Nat
  res : Option Err
deriving DecidableEq

/-- The `Do` of `Serial(name, tasks...)` (`summon.go` lines 58-70): iterate
tasks in order; for a non-nil `Do`, invoke it and return its error
immediately when non-nil; otherwise (and also when `Do` is nil) append a
non-nil `Defer` to the pending list and continue.  The Go loop's
accumulators (`defers`, the implicit trace) are rendered structurally: each
frame prepends its own contribution to the recursive result, which yields
the same accumulated lists. -/
def serialDo : List Task → SerialOut
  | [] => ⟨[], [], none⟩
  | t :: ts =>
    match t.Do with
    | some a =>
      match a.result with
      | some e => ⟨[], [a.id], some e⟩
      | none =>
        let rest := serialDo ts
        ⟨t.Defer.toList ++ rest.defers, a.id :: rest.trace, rest.res⟩
    | none =>
      let rest := serialDo ts
      ⟨t.Defer.toList ++ rest.defers, rest.trace, rest.res⟩

/-- The loop inside the `Defer` of `Serial` (`summon.go` lines 71-77): run
every pending cleanup in queue order, collecting each invocation's id and
its (possibly nil) returned error; no early exit exists in the loop. -/
def serialDeferRun : List Act → List Nat × List (Option Err)
  | [] => ([], [])
  | d :: ds =>
    let rest := serialDeferRun ds
    (d.id :: rest.1, d.result :: rest.2)

/-- Output of the `Defer` produced by `Serial`: the trace of invoked cleanup
act ids, and the aggregated error. -/
structure DeferOut where
  trace : List Nat
  res : Option (List Err)
deriving DecidableEq

/-- The `Defer` of `Serial(name, tasks...)`: run all pending cleanups,
then return `errgroup.NewMultiError` of the collected results. -/
def serialDefer (ds : List Act) : DeferOut :=
  let r := serialDeferRun ds
  ⟨r.1, NewMultiError r.2⟩

/-- The trace of `Do`-invocations a list of tasks produces when all of them
succeed: the id of each non-nil `Do`, in list order. -/
def doTr (ts : List Task) : List Nat :=
  ts.filterMap fun t => t.Do.map Act.id

/-- The cleanups a list of tasks contributes to the pending list: each
non-nil `Defer`, in list order. -/
def deferQ (ts : List Task) : List Act :=
  ts.filterMap Task.Defer

/-- A task whose `Do` does not fail: either `Do` is nil or its invocation
returns nil. -/
def doOk (t : Task) : Bool :=
  match t.Do with
  | some a => a.result.isNone
  | none => true

theorem serialDo_append_ok (pre rest : List Task) (h : ∀ t ∈ pre, doOk t) :
    serialDo (pre ++ rest) =
      ⟨deferQ pre ++ (serialDo rest).defers,
       doTr pre ++ (serialDo rest).trace,
       (serialDo rest).res⟩ := by
  induction pre with
  | nil => simp [deferQ, doTr]
  | cons t ts ih =>
    have ht : doOk t := h t (List.mem_cons_self t ts)
    have hts : ∀ u ∈ ts, doOk u := fun u hu => h u (List.mem_cons_of_mem t hu)
    cases hDo : t.Do with
    | none =>
      cases hDf : t.Defer <;>
        simp [List.cons_append, serialDo, hDo, hDf, ih hts, deferQ, doTr,
          List.filterMap_cons]
    | some a =>
      have hres : a.result = none := by
        simpa [doOk, hDo, Option.isNone_iff_eq_none] using ht
      cases hDf : t.Defer <;>
        simp [List.cons_append, serialDo, hDo, hDf, hres, ih hts, deferQ, doTr,
          List.filterMap_cons]

/-- Output of one invocation of the `Do` produced by `Parallel`: the pending
cleanup list, the ids of the `Do` acts that were launched and joined (in
canonical task order), and the list of results the errgroup collected. -/
structure ParOut where
  defers : List Act
  trace : List Nat
  results : List (Option Err)
deriving DecidableEq

/-- The `Do` of `Parallel(name, tasks...)` (`summon.go` lines 24-39):
for every task, a non-nil `Do` is launched as its own goroutine and its
result handed to the errgroup, and a non-nil `Defer` is appended to the
pending list in the same loop, unconditionally; `eg.Wait()` joins every
launched goroutine and returns the aggregate.  The join is modelled
denotationally: the output records every launched act and every collected
result, in canonical task order. -/
def parallelDo : List Task → ParOut
  | [] => ⟨[], [], []⟩
  | t :: ts =>
    let rest := parallelDo ts
    ⟨t.Defer.toList ++ rest.defers,
     (t.Do.map Act.id).toList ++ rest.trace,
     (t.Do.map Act.result).toList ++ rest.results⟩

/-- The error returned by the `Do` of `Parallel`: the errgroup's aggregate
of all collected results. -/
def parallelDoRes (ts : List Task) : Option (List Err) :=
  NewMultiError (parallelDo ts).results

/-- The `Defer` of `Parallel(name, tasks...)` (`summon.go` lines 40-50):
every queued cleanup is launched and joined; all of them run regardless of
each other's results, and the aggregate is returned. -/
def parallelDefer (ds : List Act) : DeferOut :=
  ⟨ds.map Act.id, NewMultiError (ds.map Act.result)⟩

/-- Function `Run(ctx, t)` (`summon.go` lines 81-93): invoke a non-nil `Do`; on a
non-nil error return it at once; then invoke a non-nil `Defer` and return
its error if non-nil; otherwise return nil.  The first component is the
trace of invoked act ids. -/
def Run (t : Task) : List Nat × Option Err :=
  match t.Do with
  | some a =>
    match a.result with
    | some e => ([a.id], some e)
    | none =>
      match t.Defer with
      | some d => ([a.id, d.id], d.result)
      | none => ([a.id], none)
  | none =>
    match t.Defer with
    | some d => ([d.id], d.result)
    | none => ([], none)

/-- Go struct `Step` from the `main` driver: `Do, Defer func(kill chan bool) error`.
The driver invokes `step.Do` without a nil check, so `Do` is mandatory. -/
structure Step where
  Do : Act
  Defer : Option Act
deriving DecidableEq

/-- Output of the forward loop of the flat-list driver `run(steps)`
(`summon.go` driver lines 228-236): the returned error, the trace of
invoked `Do` act ids, and the Go-deferred `LoggedDefer` thunks in the order
they will execute (Go runs deferred calls last-in first-out when the
closure returns). -/
structure FlatFwd where
  res : Option Err
  trace : List Nat
  queued : List (Option Act)
deriving DecidableEq

/-- The forward loop of `run(steps)`: invoke each step's `Do`; on a non-nil
error return it immediately — the `defer step.LoggedDefer(deferKill)`
statement of that iteration is never reached; on success, push the step's
`LoggedDefer` onto the deferred-call stack and continue.  `queued` lists
the pushed cleanups in execution (reverse-push) order. -/
def flatForward : List Step → FlatFwd
  | [] => ⟨none, [], []⟩
  | s :: ss =>
    match s.Do.result with
    | some e => ⟨some e, [s.Do.id], []⟩
    | none =>
      let rest := flatForward ss
      ⟨rest.res, s.Do.id :: rest.trace, rest.queued ++ [s.Defer]⟩

/-- Executing the deferred `Step.LoggedDefer(kill)` calls (`summon.go`
driver lines 119-126): a nil `Defer` does nothing; otherwise the `Defer`
is invoked and a non-nil error is written to stderr (collected here as the
log) without interrupting the remaining deferred calls.  Returns the trace
of invoked cleanup act ids and the logged errors. -/
def runLoggedDefers : List (Option Act) → List Nat × List Err
  | [] => ([], [])
  | none :: q => runLoggedDefers q
  | some d :: q =>
    let rest := runLoggedDefers q
    (d.id :: rest.1, d.result.toList ++ rest.2)

/-- Output of the flat-list driver `run(steps)`: the returned error, the
forward `Do` trace, the cleanup trace, and the errors logged by
`LoggedDefer`. -/
structure FlatOut where
  res : Option Err
  trace : List Nat
  deferTrace : List Nat
  logged : List Err
deriving DecidableEq

/-- The flat-list driver `run(steps)` (`summon.go` driver lines 222-249):
run the forward loop; when it returns (on success or on the first `Do`
failure) the queued `LoggedDefer` calls all execute; their failures are
logged and never alter the value the driver returns. -/
def flatRun (steps : List Step) : FlatOut :=
  let f := flatForward steps
  let d := runLoggedDefers f.queued
  ⟨f.res, f.trace, d.1, d.2⟩

/-- Errors produced by the process wrapper `run(cmd, kill)` of the `system`
package: the immediate stream-already-set errors, a `cmd.Start()` failure,
a `cmd.Wait()` error wrapped with the command line and captured output
(`cmderr.New` / `fmt.Errorf` depending on the evolution), or a
`cmd.Process.Kill()` failure. -/
inductive PErr where
  | streamAlreadySet (stdout : Bool)
  | startFailed (e : Err)
  | cmdFailed (e : Err)
  | killFailed (e : Err)
deriving DecidableEq

/-- Observable events of one `run(cmd, kill)` invocation: the process was
started, it was forcibly killed, and its wait-result was consumed. -/
inductive PEvent where
  | started
  | killed
  | waited
deriving DecidableEq

/-- An `*exec.Cmd` as the wrapper observes it: whether its output streams
are already bound, and the outcomes of `Start()`, `Wait()` and
`Process.Kill()` (`none` = nil error). -/
structure Cmd where
  stdoutSet : Bool
  stderrSet : Bool
  startErr : Option Err
  waitErr : Option Err
  killErr : Option Err
deriving DecidableEq

/-- The process wrapper `run(cmd, kill)` (`system/system.go` lines
1067-1101, identically `src/unnamed/part_001` lines 859-893): reject a
command whose `Stdout` or `Stderr` is already set before doing anything;
bind both streams to one buffer and `Start()`; on start failure return it;
otherwise a goroutine performs `Wait()` and sends the wrapped wait error
(nil on clean exit) on channel `ec`, and the wrapper selects between the
kill signal and `ec`.  `killFirst` records which select branch fires: when
the kill signal wins, `e1 := cmd.Process.Kill()` runs, then `e2 := <-ec`
is still consumed, and `e2` is returned when non-nil, else `e1`; when the
process exits first, the received wait result is returned.  Returns the
ordered event list and the wrapper's error. -/
def procRun (c : Cmd) (killFirst : Bool) : List PEvent × Option PErr :=
  if c.stdoutSet then ([], some (.streamAlreadySet true))
  else if c.stderrSet then ([], some (.streamAlreadySet false))
  else
    match c.startErr with
    | some e => ([], some (.startFailed e))
    | none =>
      let waitMsg : Option PErr := c.waitErr.map PErr.cmdFailed
      if killFirst then
        let e1 : Option PErr := c.killErr.map PErr.killFailed
        ([.started, .killed, .waited],
          match waitMsg with
          | some e2 => some e2
          | none => e1)
      else
        ([.started, .waited], waitMsg)

/-- Field data of `SwapDisk` (`src/unnamed/part_000` lines 230-236); the
receiver itself is embedded as `Option SwapDiskData`, `none` being the nil
pointer a swap-disabled `Config` (`Config.Swap == nil`) supplies. -/
structure SwapDiskData where
  Name : String
  Device : String
  Mapper : String
  KeyFile : String
deriving DecidableEq

/-- Result of one `SwapDisk` method: the argv of each external command
executed, and the returned error — a `cmderr`-style pair of the failing
command and the underlying error. -/
abbrev SwapResult := List (List String) × Option (List String × Err)

/-- Run one external command the way the `SwapDisk` methods do
(`cmd.CombinedOutput()` with the error wrapped by `cmderr.New`), against an
oracle `ex` giving each command's outcome. -/
def swapExec (ex : List String → Option Err) (cmd : List String) : SwapResult :=
  ([cmd], (ex cmd).map fun e => (cmd, e))

/-- Method `SwapDisk.LuksFormat` (`src/unnamed/part_000` lines 239-257): nil
receiver returns nil at once; otherwise `cryptsetup luksFormat` runs with
the key file. -/
def SwapDisk.LuksFormat (d : Option SwapDiskData)
    (ex : List String → Option Err) : SwapResult :=
  match d with
  | none => ([], none)
  | some d =>
    swapExec ex ["cryptsetup", "luksFormat",
      "--cipher", "aes-xts-plain64",
      "--key-size", "512",
      "--hash", "sha512",
      "--iter-time", "5000",
      "--use-random",
      "--key-file", d.KeyFile,
      d.Device]

/-- Method `SwapDisk.LuksOpen` (`src/unnamed/part_000` lines 259-275): nil
receiver returns nil at once; otherwise `cryptsetup open` runs. -/
def SwapDisk.LuksOpen (d : Option SwapDiskData)
    (ex : List String → Option Err) : SwapResult :=
  match d with
  | none => ([], none)
  | some d =>
    swapExec ex ["cryptsetup", "open",
      "--type", "luks",
      "--key-file", d.KeyFile,
      d.Device,
      d.Name]

/-- Method `SwapDisk.LuksClose` (`src/unnamed/part_000` lines 277-287): nil
receiver returns nil at once; otherwise `cryptsetup close` runs. -/
def SwapDisk.LuksClose (d : Option SwapDiskData)
    (ex : List String → Option Err) : SwapResult :=
  match d with
  | none => ([], none)
  | some d => swapExec ex ["cryptsetup", "close", d.Name]

/-- Method `SwapDisk.MakeFS` (`src/unnamed/part_000` lines 289-300): nil receiver
returns nil at once; otherwise `mkswap` runs (with the source's `-efi`
label quirk preserved). -/
def SwapDisk.MakeFS (d : Option SwapDiskData)
    (ex : List String → Option Err) : SwapResult :=
  match d with
  | none => ([], none)
  | some d => swapExec ex ["mkswap", "--label", d.Name ++ "-efi", d.Mapper]

/-- Method `SwapDisk.Mount` (`src/unnamed/part_000` lines 302-312): nil receiver
returns nil at once; otherwise `swapon` runs. -/
def SwapDisk.Mount (d : Option SwapDiskData)
    (ex : List String → Option Err) : SwapResult :=
  match d with
  | none => ([], none)
  | some d => swapExec ex ["swapon", d.Mapper]

/-- Method `SwapDisk.Umount` (`src/unnamed/part_000` lines 314-324): nil receiver
returns nil at once; otherwise `swapoff` runs. -/
def SwapDisk.Umount (d : Option SwapDiskData)
    (ex : List String → Option Err) : SwapResult :=
  match d with
  | none => ([], none)
  | some d => swapExec ex ["swapoff", d.Mapper]

theorem serialDeferRun_eq (ds : List Act) :
    serialDeferRun ds = (ds.map Act.id, ds.map Act.result) := by
  induction ds with
  | nil => rfl
  | cons d ds ih => simp [serialDeferRun, ih]

theorem serialDo_fail_head (t : Task) (post : List Task) (a : Act) (e : Err)
    (hDo : t.Do = some a) (hres : a.result = some e) :
    serialDo (t :: post) = ⟨[], [a.id], some e⟩ := by
  simp [serialDo, hDo, hres]

/-- C1: for every Serial composition whose units before the failing one all
succeed, the produced `Do` invokes exactly the non-nil `Do`s of those units
in list order followed by the failing `Do`, returns the failing unit's
error, and leaves exactly the preceding units' non-nil `Defer`s queued; the
produced `Defer` then runs exactly those queued cleanups.  In particular no
unit after the failing one has its `Do` invoked. -/
theorem C1_serial_do_short_circuit (pre post : List Task) (t : Task)
    (a : Act) (e : Err) (hpre : ∀ u ∈ pre, doOk u)
    (hDo : t.Do = some a) (hres : a.result = some e) :
    serialDo (pre ++ t :: post) = ⟨deferQ pre, doTr pre ++ [a.id], some e⟩ ∧
    (serialDefer (serialDo (pre ++ t :: post)).defers).trace =
      (deferQ pre).map Act.id := by
  have h1 : serialDo (pre ++ t :: post) =
      ⟨deferQ pre, doTr pre ++ [a.id], some e⟩ := by
    rw [serialDo_append_ok pre (t :: post) hpre,
      serialDo_fail_head t post a e hDo hres]
    simp
  refine ⟨h1, ?_⟩
  rw [h1]
  simp [serialDefer, serialDeferRun_eq]

/-- C1 witness: the spec scenario Serial(A.Do=ok/A.Defer=ok, B.Do=fails,
C.Do=ok): the result is B's error, the invoked `Do`s are exactly A's then
B's (so C's `Do`, act 2, never runs), only A's `Defer` is queued, and the
cleanup phase runs exactly A's `Defer` (act 10). -/
theorem C1_serial_do_short_circuit_witness :
    serialDo [⟨"A", some ⟨0, none⟩, some ⟨10, none⟩⟩,
        ⟨"B", some ⟨1, some 5⟩, none⟩,
        ⟨"C", some ⟨2, none⟩, some ⟨12, none⟩⟩] =
      ⟨[⟨10, none⟩], [0, 1], some 5⟩ ∧
    (serialDefer (serialDo [⟨"A", some ⟨0, none⟩, some ⟨10, none⟩⟩,
        ⟨"B", some ⟨1, some 5⟩, none⟩,
        ⟨"C", some ⟨2, none⟩, some ⟨12, none⟩⟩]).defers).trace = [10] ∧
    2 ∉ (serialDo [⟨"A", some ⟨0, none⟩, some ⟨10, none⟩⟩,
        ⟨"B", some ⟨1, some 5⟩, none⟩,
        ⟨"C", some ⟨2, none⟩, some ⟨12, none⟩⟩]).trace := by
  have h := C1_serial_do_short_circuit
    [⟨"A", some ⟨0, none⟩, some ⟨10, none⟩⟩]
    [⟨"C", some ⟨2, none⟩, some ⟨12, none⟩⟩]
    ⟨"B", some ⟨1, some 5⟩, none⟩ ⟨1, some 5⟩ 5 (by decide) rfl rfl
  refine ⟨?_, ?_, ?_⟩
  · exact h.1
  · exact h.2
  · have := h.1
    simp only [List.singleton_append] at this
    rw [this]
    decide

/-- C4: the `Defer` produced by `Serial` invokes every queued cleanup in
the order they were queued (forward order, not reversed), invokes all of
them regardless of any earlier cleanup's error, and returns the aggregate
of all cleanup errors. -/
theorem C4_serial_defer_forward_best_effort (ds : List Act) :
    serialDefer ds = ⟨ds.map Act.id, NewMultiError (ds.map Act.result)⟩ := by
  simp [serialDefer, serialDeferRun_eq]

/-- C4 witness: three queued cleanups of which the first and third fail:
all three run, in queue order, and both errors (4 and 6) surface in the
aggregate. -/
theorem C4_serial_defer_forward_best_effort_witness :
    serialDefer [⟨10, some 4⟩, ⟨11, none⟩, ⟨12, some 6⟩] =
      ⟨[10, 11, 12], some [4, 6]⟩ := by
  have h := C4_serial_defer_forward_best_effort
    [⟨10, some 4⟩, ⟨11, none⟩, ⟨12, some 6⟩]
  rw [h]; decide

/-- C8 counterexample: Serial of A (Do ok, Defer act 10) then B (Do fails
with error 5, Defer act 11).  The failing unit is unit k = 2 and declared a
`Defer`, yet the cleanup phase invokes only act 10: act 11 is invoked zero
times, not exactly once as the claim requires. -/
theorem C8_counterexample :
    (serialDo [⟨"A", some ⟨0, none⟩, some ⟨10, none⟩⟩,
        ⟨"B", some ⟨1, some 5⟩, some ⟨11, none⟩⟩]).res = some 5 ∧
    (serialDefer (serialDo [⟨"A", some ⟨0, none⟩, some ⟨10, none⟩⟩,
        ⟨"B", some ⟨1, some 5⟩, some ⟨11, none⟩⟩]).defers).trace = [10] ∧
    List.count 11 (serialDefer (serialDo
        [⟨"A", some ⟨0, none⟩, some ⟨10, none⟩⟩,
         ⟨"B", some ⟨1, some 5⟩, some ⟨11, none⟩⟩]).defers).trace = 0 := by
  decide

/-- C8 as amended: when the k-th unit's `Do` fails, the `Defer`s queued are
exactly those declared by units 1..k-1 — the failing unit's own `Defer` is
not queued, because `Serial`'s loop returns the error before reaching the
queuing statement — and, when the queued cleanup ids are distinct, the
cleanup phase invokes each of them exactly once. -/
theorem C8_serial_defers_before_failure (pre post : List Task) (t : Task)
    (a : Act) (e : Err) (hpre : ∀ u ∈ pre, doOk u)
    (hDo : t.Do = some a) (hres : a.result = some e)
    (hnodup : ((deferQ pre).map Act.id).Nodup) :
    (serialDo (pre ++ t :: post)).defers = deferQ pre ∧
    (serialDefer (serialDo (pre ++ t :: post)).defers).trace =
      (deferQ pre).map Act.id ∧
    ∀ d ∈ deferQ pre,
      List.count d.id
        (serialDefer (serialDo (pre ++ t :: post)).defers).trace = 1 := by
  have h1 : serialDo (pre ++ t :: post) =
      ⟨deferQ pre, doTr pre ++ [a.id], some e⟩ := by
    rw [serialDo_append_ok pre (t :: post) hpre,
      serialDo_fail_head t post a e hDo hres]
    simp
  have h2 : (serialDefer (serialDo (pre ++ t :: post)).defers).trace =
      (deferQ pre).map Act.id := by
    rw [h1]; simp [serialDefer, serialDeferRun_eq]
  refine ⟨by rw [h1], h2, ?_⟩
  intro d hd
  rw [h2]
  exact List.count_eq_one_of_mem hnodup (List.mem_map_of_mem Act.id hd)

/-- C8 amended witness: for Serial of A (Do ok, Defer act 10) failing at B,
the queue is exactly A's `Defer` and the cleanup phase invokes act 10
exactly once. -/
theorem C8_serial_defers_before_failure_witness :
    (serialDo [⟨"A", some ⟨0, none⟩, some ⟨10, none⟩⟩,
        ⟨"B", some ⟨1, some 5⟩, some ⟨11, none⟩⟩]).defers = [⟨10, none⟩] ∧
    List.count 10 (serialDefer (serialDo
        [⟨"A", some ⟨0, none⟩, some ⟨10, none⟩⟩,
         ⟨"B", some ⟨1, some 5⟩, some ⟨11, none⟩⟩]).defers).trace = 1 := by
  have h := C8_serial_defers_before_failure
    [⟨"A", some ⟨0, none⟩, some ⟨10, none⟩⟩] []
    ⟨"B", some ⟨1, some 5⟩, some ⟨11, none⟩⟩ ⟨1, some 5⟩ 5
    (by decide) rfl rfl (by decide)
  refine ⟨?_, ?_⟩
  · simpa using h.1
  · simpa using h.2.2 ⟨10, none⟩ (by decide)

theorem parallelDo_eq (ts : List Task) :
    parallelDo ts =
      ⟨deferQ ts, doTr ts, ts.filterMap fun t => t.Do.map Act.result⟩ := by
  induction ts with
  | nil => rfl
  | cons t ts ih =>
    cases hDf : t.Defer <;> cases hDo : t.Do <;>
      simp [parallelDo, ih, deferQ, doTr, List.filterMap_cons, hDf, hDo]

/-- C2: for every Parallel composition, every unit whose `Defer` is non-nil
has that `Defer` queued for the cleanup phase.  The queue is exactly the
list of declared `Defer`s of all units, with no condition whatsoever on any
unit's `Do` field or on any `Do` result — queuing happens in the launch
loop itself, unconditionally, unlike `Serial`. -/
theorem C2_parallel_defers_unconditional (ts : List Task) :
    (parallelDo ts).defers = deferQ ts := by
  rw [parallelDo_eq]

/-- C2 witness: with A's `Do` failing and B's `Do` nil, both declared
`Defer`s (acts 10 and 11) are queued all the same. -/
theorem C2_parallel_defers_unconditional_witness :
    (parallelDo [⟨"A", some ⟨0, some 5⟩, some ⟨10, none⟩⟩,
        ⟨"B", none, some ⟨11, none⟩⟩]).defers =
      [⟨10, none⟩, ⟨11, none⟩] := by
  have h := C2_parallel_defers_unconditional
    [⟨"A", some ⟨0, some 5⟩, some ⟨10, none⟩⟩, ⟨"B", none, some ⟨11, none⟩⟩]
  rw [h]; decide

/-- C9: the `Do` produced by `Parallel` joins every sibling before
returning: the trace of launched-and-joined `Do`s is exactly every unit's
non-nil `Do` (so every unit whose `Do` is non-nil is invoked, however early
any sibling fails — in particular each such act's id is in the trace), and
the returned value aggregates every sibling's result — all failures, not
just the first. -/
theorem C9_parallel_join_aggregates (ts : List Task) :
    (parallelDo ts).trace = doTr ts ∧
    parallelDoRes ts =
      NewMultiError (ts.filterMap fun t => t.Do.map Act.result) ∧
    ∀ t ∈ ts, ∀ a, t.Do = some a → a.id ∈ (parallelDo ts).trace := by
  refine ⟨by rw [parallelDo_eq], by rw [parallelDoRes, parallelDo_eq], ?_⟩
  intro t ht a ha
  rw [parallelDo_eq]
  simp only [doTr, List.mem_filterMap]
  exact ⟨t, ht, by simp [ha]⟩

/-- C9 witness: Parallel(A.Do=ok, B.Do=fails(5), C.Do=fails(7)): all three
`Do`s are joined — the trace is [0, 1, 2] — and the aggregate preserves
both failures [5, 7], not just the first. -/
theorem C9_parallel_join_aggregates_witness :
    (parallelDo [⟨"A", some ⟨0, none⟩, none⟩,
        ⟨"B", some ⟨1, some 5⟩, none⟩,
        ⟨"C", some ⟨2, some 7⟩, none⟩]).trace = [0, 1, 2] ∧
    parallelDoRes [⟨"A", some ⟨0, none⟩, none⟩,
        ⟨"B", some ⟨1, some 5⟩, none⟩,
        ⟨"C", some ⟨2, some 7⟩, none⟩] = some [5, 7] ∧
    (2 : Nat) ∈ (parallelDo [⟨"A", some ⟨0, none⟩, none⟩,
        ⟨"B", some ⟨1, some 5⟩, none⟩,
        ⟨"C", some ⟨2, some 7⟩, none⟩]).trace := by
  have h := C9_parallel_join_aggregates
    [⟨"A", some ⟨0, none⟩, none⟩,
     ⟨"B", some ⟨1, some 5⟩, none⟩,
     ⟨"C", some ⟨2, some 7⟩, none⟩]
  refine ⟨?_, ?_, ?_⟩
  · rw [h.1]; decide
  · rw [h.2.1]; decide
  · exact h.2.2 ⟨"C", some ⟨2, some 7⟩, none⟩ (by decide) ⟨2, some 7⟩ rfl

/-- C5: `Run(ctx, t)` invokes a non-nil `Do`; a failing `Do` makes `Run`
return that error with `Defer` never invoked; a succeeding or nil `Do`
followed by a non-nil `Defer` makes `Run` invoke the `Defer` and return its
result; with both fields nil `Run` returns success. -/
theorem C5_run_contract (t : Task) :
    (∀ a e, t.Do = some a → a.result = some e → Run t = ([a.id], some e)) ∧
    (∀ a d, t.Do = some a → a.result = none → t.Defer = some d →
      Run t = ([a.id, d.id], d.result)) ∧
    (∀ d, t.Do = none → t.Defer = some d → Run t = ([d.id], d.result)) ∧
    (∀ a, t.Do = some a → a.result = none → t.Defer = none →
      Run t = ([a.id], none)) ∧
    (t.Do = none → t.Defer = none → Run t = ([], none)) := by
  refine ⟨?_, ?_, ?_, ?_, ?_⟩
  · intro a e hDo hres; simp [Run, hDo, hres]
  · intro a d hDo hres hDf; simp [Run, hDo, hres, hDf]
  · intro d hDo hDf; simp [Run, hDo, hDf]
  · intro a hDo hres hDf; simp [Run, hDo, hres, hDf]
  · intro hDo hDf; simp [Run, hDo, hDf]

/-- C5 witness: the four populated cases of the `Run` contract at concrete
tasks: failing `Do` (error 5, `Defer` act 9 not invoked), succeeding `Do`
then failing `Defer`, nil `Do` with `Defer`, and the all-nil task. -/
theorem C5_run_contract_witness :
    Run ⟨"t1", some ⟨0, some 5⟩, some ⟨9, none⟩⟩ = ([0], some 5) ∧
    Run ⟨"t2", some ⟨1, none⟩, some ⟨8, some 3⟩⟩ = ([1, 8], some 3) ∧
    Run ⟨"t3", none, some ⟨7, none⟩⟩ = ([7], none) ∧
    Run ⟨"t4", none, none⟩ = ([], none) := by
  refine ⟨?_, ?_, ?_, ?_⟩
  · exact (C5_run_contract ⟨"t1", some ⟨0, some 5⟩, some ⟨9, none⟩⟩).1
      ⟨0, some 5⟩ 5 rfl rfl
  · exact (C5_run_contract ⟨"t2", some ⟨1, none⟩, some ⟨8, some 3⟩⟩).2.1
      ⟨1, none⟩ ⟨8, some 3⟩ rfl rfl rfl
  · exact (C5_run_contract ⟨"t3", none, some ⟨7, none⟩⟩).2.2.1
      ⟨7, none⟩ rfl rfl
  · exact (C5_run_contract ⟨"t4", none, none⟩).2.2.2.2 rfl rfl

theorem flatForward_append_ok (pre rest : List Step)
    (h : ∀ u ∈ pre, u.Do.result = none) :
    flatForward (pre ++ rest) =
      ⟨(flatForward rest).res,
       (pre.map fun u => u.Do.id) ++ (flatForward rest).trace,
       (flatForward rest).queued ++ (pre.map Step.Defer).reverse⟩ := by
  induction pre with
  | nil => simp
  | cons s ts ih =>
    have hs : s.Do.result = none := h s (List.mem_cons_self s ts)
    have hts : ∀ u ∈ ts, u.Do.result = none :=
      fun u hu => h u (List.mem_cons_of_mem s hu)
    simp [flatForward, hs, ih hts, List.append_assoc]

theorem runLoggedDefers_eq (q : List (Option Act)) :
    runLoggedDefers q =
      ((q.filterMap id).map Act.id, (q.filterMap id).filterMap Act.result) := by
  induction q with
  | nil => rfl
  | cons o q ih =>
    cases o with
    | none => simpa [runLoggedDefers, List.filterMap_cons] using ih
    | some d =>
      cases hr : d.result <;>
        simp [runLoggedDefers, List.filterMap_cons, ih, hr]

theorem queued_reverse (l : List Step) :
    (l.map Step.Defer).reverse.filterMap id = (l.filterMap Step.Defer).reverse := by
  rw [← List.filterMap_reverse, ← List.map_reverse, List.filterMap_map]
  rfl

/-- C3 counterexample: flat driver over step 1 (Do act 0 ok, Defer act 10)
then step 2 (Do act 1 fails with error 5, Defer act 11).  Step 2's `Do` has
run, yet its `Defer` (act 11) is never queued or invoked: the cleanup trace
is exactly [10] — refuting the claim that the failing unit's `Defer` is
queued. -/
theorem C3_counterexample :
    (flatRun [⟨⟨0, none⟩, some ⟨10, none⟩⟩,
        ⟨⟨1, some 5⟩, some ⟨11, none⟩⟩]).res = some 5 ∧
    (flatRun [⟨⟨0, none⟩, some ⟨10, none⟩⟩,
        ⟨⟨1, some 5⟩, some ⟨11, none⟩⟩]).deferTrace = [10] ∧
    11 ∉ (flatRun [⟨⟨0, none⟩, some ⟨10, none⟩⟩,
        ⟨⟨1, some 5⟩, some ⟨11, none⟩⟩]).deferTrace := by
  decide

/-- C3 as amended: in the flat-list driver, a unit's `Defer` is queued
exactly when its own `Do` succeeded — the failing unit's `Defer` is not
queued, because the driver returns the error before that iteration's
`defer` statement executes.  After the loop (on the first failure, first
conjunct, or on success, second conjunct) every queued `Defer` runs, in
reverse (last-in first-out) order; each failure is logged without stopping
the remaining `Defer`s, and the driver's returned error is unchanged by
them. -/
theorem C3_flat_driver_defer_policy :
    (∀ (pre post : List Step) (s : Step) (e : Err),
      (∀ u ∈ pre, u.Do.result = none) → s.Do.result = some e →
      flatRun (pre ++ s :: post) =
        ⟨some e,
         (pre.map fun u => u.Do.id) ++ [s.Do.id],
         (pre.filterMap Step.Defer).reverse.map Act.id,
         (pre.filterMap Step.Defer).reverse.filterMap Act.result⟩) ∧
    (∀ steps : List Step, (∀ u ∈ steps, u.Do.result = none) →
      flatRun steps =
        ⟨none,
         steps.map fun u => u.Do.id,
         (steps.filterMap Step.Defer).reverse.map Act.id,
         (steps.filterMap Step.Defer).reverse.filterMap Act.result⟩) := by
  constructor
  · intro pre post s e hpre hs
    have hhead : flatForward (s :: post) = ⟨some e, [s.Do.id], []⟩ := by
      simp [flatForward, hs]
    rw [flatRun, flatForward_append_ok pre (s :: post) hpre, hhead]
    simp [flatRun, runLoggedDefers_eq, queued_reverse]
  · intro steps hsteps
    have h0 : flatForward ([] : List Step) = ⟨none, [], []⟩ := rfl
    have := flatForward_append_ok steps [] hsteps
    rw [List.append_nil] at this
    rw [flatRun, this, h0]
    simp [runLoggedDefers_eq, queued_reverse]

/-- C3 amended witness: at the counterexample input — step 1 (Do ok, Defer
act 10 failing with 4) before failing step 2 (Do act 1, error 5, Defer act
11) — the driver returns 5, runs exactly act 10 in cleanup, and logs act
10's failure 4 without altering the returned error. -/
theorem C3_flat_driver_defer_policy_witness :
    flatRun [⟨⟨0, none⟩, some ⟨10, some 4⟩⟩, ⟨⟨1, some 5⟩, some ⟨11, none⟩⟩] =
      ⟨some 5, [0, 1], [10], [4]⟩ := by
  have h := C3_flat_driver_defer_policy.1
    [⟨⟨0, none⟩, some ⟨10, some 4⟩⟩] [] ⟨⟨1, some 5⟩, some ⟨11, none⟩⟩ 5
    (by decide) rfl
  simpa using h

/-- C6: the process wrapper `run(cmd, kill)` rejects a command whose
`Stdout` or `Stderr` is already bound: it returns the corresponding error
immediately and no event occurs — the process is never started. -/
theorem C6_proc_stream_guard (c : Cmd) (kf : Bool)
    (h : c.stdoutSet = true ∨ c.stderrSet = true) :
    (procRun c kf).1 = [] ∧
    ∃ b, (procRun c kf).2 = some (PErr.streamAlreadySet b) := by
  rcases h with h | h
  · simp [procRun, h]
  · cases hso : c.stdoutSet <;> simp [procRun, h, hso]

/-- C6 witness: a command with `Stdout` already bound is rejected without
being started, for either select outcome. -/
theorem C6_proc_stream_guard_witness :
    (procRun ⟨true, false, none, none, none⟩ false).1 = [] ∧
    ∃ b, (procRun ⟨true, false, none, none, none⟩ false).2 =
      some (PErr.streamAlreadySet b) :=
  C6_proc_stream_guard ⟨true, false, none, none, none⟩ false (Or.inl rfl)

/-- C7: for a started process, when the kill signal fires first the wrapper
kills the child and then still consumes the wait-result before returning —
the event order is started, killed, waited — and it returns the (wrapped)
wait error when that is non-nil, otherwise the kill error; and in the
process-exits-first branch the wait-result is likewise consumed, so the
wrapper never returns before the child has fully exited. -/
theorem C7_proc_kill_then_wait (c : Cmd) (h1 : c.stdoutSet = false)
    (h2 : c.stderrSet = false) (h3 : c.startErr = none) :
    (procRun c true).1 = [.started, .killed, .waited] ∧
    (∀ e, c.waitErr = some e →
      (procRun c true).2 = some (PErr.cmdFailed e)) ∧
    (c.waitErr = none → (procRun c true).2 = c.killErr.map PErr.killFailed) ∧
    PEvent.waited ∈ (procRun c false).1 := by
  refine ⟨by simp [procRun, h1, h2, h3], ?_, ?_, by simp [procRun, h1, h2, h3]⟩
  · intro e he; simp [procRun, h1, h2, h3, he]
  · intro he; simp [procRun, h1, h2, h3, he]

/-- C7 witness: a started process whose wait reports error 6 while the kill
itself fails with 9: the kill branch kills then waits, and the process's
own wait error 6 wins over the kill error. -/
theorem C7_proc_kill_then_wait_witness :
    (procRun ⟨false, false, none, some 6, some 9⟩ true).1 =
      [.started, .killed, .waited] ∧
    (procRun ⟨false, false, none, some 6, some 9⟩ true).2 =
      some (PErr.cmdFailed 6) ∧
    PEvent.waited ∈ (procRun ⟨false, false, none, some 6, some 9⟩ false).1 := by
  have h := C7_proc_kill_then_wait ⟨false, false, none, some 6, some 9⟩
    rfl rfl rfl
  exact ⟨h.1, h.2.1 6 rfl, h.2.2.2⟩

/-- C10: on the nil `*SwapDisk` receiver — what a swap-disabled `Config`
(`Config.Swap == nil`) supplies — every `SwapDisk` operation returns nil
and executes no external command, whatever the external world would answer. -/
theorem C10_swap_nil_receiver_noop (ex : List String → Option Err) :
    SwapDisk.LuksFormat none ex = ([], none) ∧
    SwapDisk.LuksOpen none ex = ([], none) ∧
    SwapDisk.LuksClose none ex = ([], none) ∧
    SwapDisk.MakeFS none ex = ([], none) ∧
    SwapDisk.Mount none ex = ([], none) ∧
    SwapDisk.Umount none ex = ([], none) :=
  ⟨rfl, rfl, rfl, rfl, rfl, rfl⟩

/-- C10 witness: even against a world in which every command fails, the nil
receiver's operations execute nothing and return nil. -/
theorem C10_swap_nil_receiver_noop_witness :
    SwapDisk.LuksFormat none (fun c => some c.length) = ([], none) ∧
    SwapDisk.LuksOpen none (fun c => some c.length) = ([], none) ∧
    SwapDisk.LuksClose none (fun c => some c.length) = ([], none) ∧
    SwapDisk.MakeFS none (fun c => some c.length) = ([], none) ∧
    SwapDisk.Mount none (fun c => some c.length) = ([], none) ∧
    SwapDisk.Umount none (fun c => some c.length) = ([], none) :=
  C10_swap_nil_receiver_noop (fun c => some c.length)

end Summon
